import Mathlib

/-!
Shallow embedding of the quant-mvp backtesting engine core
(src/engine/portfolio.py, risk.py, metrics.py, scheduler.py, backtest.py).

Modelling conventions:
* Python floats are modelled by `ℚ` (exact rational arithmetic; the claims
  under study are algebraic identities of the code, not rounding facts).
* Python dicts are modelled by insertion-ordered association lists with
  unique keys (`Dict α` below), with `dget`/`dset`/`ddel` mirroring
  `d.get`, `d[k] = v` and `del d[k]`.
* `pd.Timestamp` is modelled by a record `Ts` holding a calendar-day number
  and an hour/minute wall-clock part; `dt.date()` is `Ts.day` and
  `strftime "%H:%M"` is `Ts.hm`.
* Python exceptions are modelled with `Except String`.
-/

namespace QuantMVP

/-! ## Spec-side definitions (written from the spec's words, for refinement
claims) -/

/-! ## Helper lemmas -/

/-! ## Claims -/

/-- A Python dict: insertion-ordered association list with unique keys. -/
abbrev Dict (α : Type) := List (String × α)

/-- `d.get(k)` -/
def dget {α : Type} : Dict α → String → Option α
  | [], _ => none
  | (k', v) :: rest, k => if k' = k then some v else dget rest k

/-- `d.get(k, v₀)` -/
def dgetD {α : Type} (d : Dict α) (k : String) (v₀ : α) : α :=
  (dget d k).getD v₀

/-- `d[k] = v` (updates in place if the key exists, else appends). -/
def dset {α : Type} : Dict α → String → α → Dict α
  | [], k, v => [(k, v)]
  | (k', v') :: rest, k, v =>
      if k' = k then (k', v) :: rest else (k', v') :: dset rest k v

/-- `del d[k]` -/
def ddel {α : Type} : Dict α → String → Dict α
  | [], _ => []
  | (k', v') :: rest, k =>
      if k' = k then ddel rest k else (k', v') :: ddel rest k

/-- The key list of a dict. -/
def dkeys {α : Type} (d : Dict α) : List String := d.map (·.1)

/-- Well-formedness of the model of a Python dict: keys occur at most once. -/
def DNodup {α : Type} (d : Dict α) : Prop := (dkeys d).Nodup

/-- A timestamp: calendar day plus intraday wall clock (models `pd.Timestamp`). -/
structure Ts where
  day : ℤ
  hour : ℕ
  minute : ℕ
deriving DecidableEq, Repr

/-- Trade side: `"BUY"` / `"SELL"` strings in the source. -/
inductive Side where
  | BUY
  | SELL
deriving DecidableEq, Repr

/-- One trade record appended by `Portfolio.rebalance`. -/
structure Trade where
  date : Ts
  code : String
  side : Side
  price : ℚ
  shares : ℕ
  amount : ℚ
  fee : ℚ
deriving DecidableEq, Repr

/-- One equity-curve point appended by `Portfolio.record_daily`. -/
structure EquityPoint where
  date : Ts
  total : ℚ
  cash : ℚ
deriving DecidableEq, Repr

/-- One daily-P&L point appended by `Portfolio.record_daily`. -/
structure PnlPoint where
  date : Ts
  pnl : ℚ
  ret : ℚ
  total : ℚ
deriving DecidableEq, Repr

/-- The mutable state of `Portfolio` (src/engine/portfolio.py). -/
structure Portfolio where
  init_cash : ℚ
  cash : ℚ
  positions_hold : Dict ℕ
  positions_today : Dict ℕ
  prices : Dict ℚ
  equity_curve : List EquityPoint
  daily_pnl : List PnlPoint
  daily_trades : List Trade
  last_total : ℚ
deriving DecidableEq, Repr

/-- `Portfolio.__init__` -/
def Portfolio.mkInit (init_cash : ℚ) : Portfolio :=
  { init_cash := init_cash
    cash := init_cash
    positions_hold := []
    positions_today := []
    prices := []
    equity_curve := []
    daily_pnl := []
    daily_trades := []
    last_total := init_cash }

/-- `Portfolio.on_new_day`: move every pending (T+1) entry into the settled
book, summing with any existing settled balance, then clear the pending book. -/
def Portfolio.onNewDay (P : Portfolio) : Portfolio :=
  { P with
    positions_hold :=
      P.positions_today.foldl
        (fun h cs => dset h cs.1 (dgetD h cs.1 0 + cs.2)) P.positions_hold
    positions_today := [] }

/-- `Portfolio.update_price`: reject (log, no-op) non-positive prices,
otherwise overwrite the cache entry. -/
def Portfolio.updatePrice (P : Portfolio) (code : String) (price : ℚ) : Portfolio :=
  if price ≤ 0 then P
  else { P with prices := dset P.prices code price }

/-- The inner loop of `Portfolio.total_value`: add one position book's market
value, looking prices up with `prices.get(code, 0)` and only counting
positive prices. -/
def addBookValue (prices : Dict ℚ) (acc : ℚ) (book : Dict ℕ) : ℚ :=
  book.foldl
    (fun total cs =>
      let price := dgetD prices cs.1 0
      if price > 0 then total + (cs.2 : ℚ) * price else total)
    acc

/-- `Portfolio.total_value`: cash plus market value of both position books. -/
def Portfolio.totalValue (P : Portfolio) : ℚ :=
  addBookValue P.prices (addBookValue P.prices P.cash P.positions_hold) P.positions_today

/-- Python `int(q)`: truncation toward zero. -/
def pyInt (q : ℚ) : ℤ :=
  if 0 ≤ q then ((q.num.toNat / q.den : ℕ) : ℤ)
  else -(((-q).num.toNat / (-q).den : ℕ) : ℤ)

/-- The fee parameters of `Portfolio.rebalance`
(`fee_rate`, `fee_mode`, `fee_rate_pct`, `fee_fixed`). -/
structure FeeCfg where
  fee_rate : ℚ
  fee_mode : String
  fee_rate_pct : ℚ
  fee_fixed : ℚ
deriving DecidableEq, Repr

/-- The fee computation appearing identically on the sell and buy legs of
`Portfolio.rebalance`. -/
def calcFee (cfg : FeeCfg) (notional : ℚ) : ℚ :=
  if cfg.fee_mode = "rate+fixed" then notional * cfg.fee_rate_pct + cfg.fee_fixed
  else notional * cfg.fee_rate

/-- The state of `RiskManager` (src/engine/risk.py). -/
structure RiskManager where
  max_position_pct : ℚ
  max_drawdown : ℚ
  stop_loss_pct : Option ℚ
  peak_value : Option ℚ
deriving DecidableEq, Repr

/-- `RiskManager.__init__`: validates each threshold is in (0, 1]
(`stop_loss_pct` only when provided), raising `ValueError` otherwise. -/
def riskInit (max_position_pct max_drawdown : ℚ) (stop_loss_pct : Option ℚ) :
    Except String RiskManager :=
  if ¬(0 < max_position_pct ∧ max_position_pct ≤ 1) then
    .error "max_position_pct out of range"
  else if ¬(0 < max_drawdown ∧ max_drawdown ≤ 1) then
    .error "max_drawdown out of range"
  else
    match stop_loss_pct with
    | some x =>
        if ¬(0 < x ∧ x ≤ 1) then .error "stop_loss_pct out of range"
        else .ok { max_position_pct := max_position_pct, max_drawdown := max_drawdown,
                   stop_loss_pct := some x, peak_value := none }
    | none =>
        .ok { max_position_pct := max_position_pct, max_drawdown := max_drawdown,
              stop_loss_pct := none, peak_value := none }

/-- `RiskManager.check_portfolio`. Returns the post-call manager state and
the boolean verdict; a first peak of `0` makes the drawdown expression
`(peak - value) / peak` a Python `ZeroDivisionError`, modelled as `.error`. -/
def checkPortfolio (rm : RiskManager) (portfolio_value : ℚ) :
    Except String (RiskManager × Bool) :=
  if portfolio_value < 0 then .ok (rm, false)
  else
    let peak0 := rm.peak_value.getD portfolio_value
    let peak := max peak0 portfolio_value
    if peak = 0 then .error "ZeroDivisionError"
    else
      let drawdown := (peak - portfolio_value) / peak
      if drawdown ≥ rm.max_drawdown then
        .ok ({ rm with peak_value := some peak }, false)
      else
        .ok ({ rm with peak_value := some peak }, true)

/-- `RiskManager.cap_position`: clamp a target weight to `[0, max_position_pct]`. -/
def capPosition (rm : RiskManager) (target_weight : ℚ) : ℚ :=
  if target_weight < 0 then 0 else min target_weight rm.max_position_pct

/-- `RiskManager.check_stop_loss`. -/
def checkStopLoss (rm : RiskManager) (entry_price current_price : ℚ) : Bool :=
  match rm.stop_loss_pct with
  | none => false
  | some sl =>
      if entry_price ≤ 0 then false
      else decide ((entry_price - current_price) / entry_price ≥ sl)

/-- `target_shares = int(total_value * weight / price)` with the weight
already capped. -/
def targetSharesOf (tv : ℚ) (rm : RiskManager) (w p : ℚ) : ℤ :=
  pyInt (tv * capPosition rm w / p)

/-- `current_shares = positions_hold.get(code, 0) + positions_today.get(code, 0)` -/
def currentSharesOf (P : Portfolio) (c : String) : ℤ :=
  ((dgetD P.positions_hold c 0 : ℕ) : ℤ) + ((dgetD P.positions_today c 0 : ℕ) : ℤ)

/-- One iteration of the `for code, weight in target_weights.items()` loop of
`Portfolio.rebalance`, for one `(code, weight)` pair: the updated portfolio
and the trade appended to `trades_today`, if any.  `tv` is the
`total_value()` snapshot taken once at the top of `rebalance`. -/
def rebalEntry (tv : ℚ) (date : Ts) (rm : RiskManager) (cfg : FeeCfg)
    (P : Portfolio) (cw : String × ℚ) : Portfolio × Option Trade :=
  match dget P.prices cw.1 with
  | none => (P, none)
  | some price =>
    if price ≤ 0 then (P, none)
    else
      let target_shares := targetSharesOf tv rm cw.2 price
      let diff := target_shares - currentSharesOf P cw.1
      if diff < 0 then
        -- sell: only settled (`positions_hold`) shares are sellable
        let sellable := dgetD P.positions_hold cw.1 0
        let sell_qty : ℕ := min (-diff).toNat sellable
        if sell_qty = 0 then (P, none)
        else
          let proceeds := (sell_qty : ℚ) * price
          let fee := calcFee cfg proceeds
          let newShares := sellable - sell_qty
          let hold' := dset P.positions_hold cw.1 newShares
          let hold'' := if newShares = 0 then ddel hold' cw.1 else hold'
          ({ P with cash := P.cash + (proceeds - fee), positions_hold := hold'' },
           some { date := date, code := cw.1, side := .SELL, price := price,
                  shares := sell_qty, amount := proceeds, fee := fee })
      else if 0 < diff then
        -- buy: rejected outright if cash < cost + fee, else frozen in
        -- `positions_today`
        let cost := (diff : ℚ) * price
        let fee := calcFee cfg cost
        if P.cash < cost + fee then (P, none)
        else
          ({ P with
              cash := P.cash - (cost + fee),
              positions_today :=
                dset P.positions_today cw.1 (dgetD P.positions_today cw.1 0 + diff.toNat) },
           some { date := date, code := cw.1, side := .BUY, price := price,
                  shares := diff.toNat, amount := cost, fee := fee })
      else (P, none)

/-- The loop body of `Portfolio.rebalance` threading the accumulated
`trades_today` list. -/
def rebalStep (tv : ℚ) (date : Ts) (rm : RiskManager) (cfg : FeeCfg)
    (acc : Portfolio × List Trade) (cw : String × ℚ) : Portfolio × List Trade :=
  let r := rebalEntry tv date rm cfg acc.1 cw
  (r.1, acc.2 ++ r.2.toList)

/-- `Portfolio.rebalance`: snapshot `total_value()` once, run the per-
instrument loop, extend `daily_trades`, and return the day's trades. -/
def Portfolio.rebalance (P : Portfolio) (date : Ts)
    (target_weights : List (String × ℚ)) (rm : RiskManager) (cfg : FeeCfg) :
    Portfolio × List Trade :=
  let tv := P.totalValue
  let r := target_weights.foldl (rebalStep tv date rm cfg) (P, [])
  ({ r.1 with daily_trades := r.1.daily_trades ++ r.2 }, r.2)

/-- The `cash_flow` accumulation of `Portfolio.record_daily`: buys count
negative (cost + fee), sells positive (proceeds − fee). -/
def tradeFlow (trades_today : List Trade) : ℚ :=
  trades_today.foldl
    (fun cash_flow t =>
      let amt := t.price * (t.shares : ℚ)
      match t.side with
      | .BUY => cash_flow - (amt + t.fee)
      | .SELL => cash_flow + (amt - t.fee))
    0

/-- `Portfolio.record_daily`: append one equity point and one P&L point and
move the `_last_total` baseline to the just-computed total value. -/
def Portfolio.recordDaily (P : Portfolio) (date : Ts) (trades_today : List Trade) :
    Portfolio :=
  let total := P.totalValue
  let cash_flow := tradeFlow trades_today
  let pnl := total - P.last_total - cash_flow
  let ret := if P.last_total > 0 then pnl / P.last_total else 0
  { P with
    equity_curve := P.equity_curve ++ [{ date := date, total := total, cash := P.cash }],
    daily_pnl := P.daily_pnl ++ [{ date := date, pnl := pnl, ret := ret, total := total }],
    last_total := total }

/-- The fold state of the `calc_drawdown` scan: running max drawdown, running
peak and the date where the peak was attained (the source keeps `peak_idx`
and reads `dates[peak_idx]`; carrying the date itself is the same data), and
the currently recorded start/end dates. -/
structure DDState where
  max_dd : ℚ
  peak : ℚ
  peak_date : Ts
  dd_start : Option Ts
  dd_end : Option Ts
deriving DecidableEq, Repr

/-- The result dict of `calc_drawdown`. -/
structure DDResult where
  max_drawdown : ℚ
  start : Option Ts
  dd_end : Option Ts
  duration : ℤ
deriving DecidableEq, Repr

/-- One iteration of the `for i, val in enumerate(total_values)` loop of
`calc_drawdown`. -/
def ddStep (st : DDState) (pt : Ts × ℚ) : DDState :=
  let st' := if pt.2 > st.peak then { st with peak := pt.2, peak_date := pt.1 } else st
  let dd := if st'.peak > 0 then (st'.peak - pt.2) / st'.peak else 0
  if dd > st.max_dd then
    { st' with max_dd := dd, dd_start := some st'.peak_date, dd_end := some pt.1 }
  else st'

/-- `calc_drawdown` (src/engine/metrics.py) on the `List[Dict]` form of the
equity curve, each point carrying its date and total.  The final `duration`
models `(pd.to_datetime(dd_end) - pd.to_datetime(dd_start)).days` as the
calendar-day difference. -/
def calcDrawdown (equity_curve : List (Ts × ℚ)) : DDResult :=
  match equity_curve with
  | [] => { max_drawdown := 0, start := none, dd_end := none, duration := 0 }
  | (d0, v0) :: _ =>
      let fin := equity_curve.foldl ddStep
        { max_dd := 0, peak := v0, peak_date := d0, dd_start := none, dd_end := none }
      let duration : ℤ :=
        match fin.dd_start, fin.dd_end with
        | some s, some e => e.day - s.day
        | _, _ => 0
      { max_drawdown := fin.max_dd, start := fin.dd_start, dd_end := fin.dd_end,
        duration := duration }

/-- `dt.strftime("%H:%M")`, zero-padded two-digit hour and minute. -/
def twoDigits (n : ℕ) : String :=
  if n < 10 then "0" ++ toString n else toString n

/-- The wall-clock `"HH:MM"` string of a timestamp. -/
def Ts.hm (t : Ts) : String := twoDigits t.hour ++ ":" ++ twoDigits t.minute

/-- The registries of `Scheduler` (src/engine/scheduler.py).  Callbacks are
modelled by their registration data only (trigger time for daily tasks, a
count for after-close tasks); the engine-loop claims concern when they are
dispatched, not what they do. -/
structure Scheduler where
  daily_tasks : List String
  after_close_tasks : ℕ
deriving DecidableEq, Repr

/-- `Scheduler.__init__` -/
def Scheduler.mkInit : Scheduler := { daily_tasks := [], after_close_tasks := 0 }

/-- `Scheduler.run_daily`: `"after_close"` registers an after-close task; a
5-character string with `':'` at index 2 registers a daily task; anything
else raises `ValueError`. -/
def Scheduler.runDaily (s : Scheduler) (time : String) : Except String Scheduler :=
  if time = "after_close" then
    .ok { s with after_close_tasks := s.after_close_tasks + 1 }
  else if time.length = 5 ∧ time.data.get? 2 = some ':' then
    .ok { s with daily_tasks := s.daily_tasks ++ [time] }
  else
    .error "time format error"

/-- Observable scheduling/recording events of one `run_backtest` execution. -/
inductive BtEvent where
  | newDay
  | schedTask (dt : Ts) (time : String)
  | record (date : Ts) (trades : List Trade)
  | afterClose
  | riskHalt (dt : Ts)
deriving DecidableEq, Repr

/-- `dt in df.index` / `df.loc[dt, "close"]`: look a close price up by exact
timestamp. -/
def priceLookup (series : List (Ts × ℚ)) (dt : Ts) : Option ℚ :=
  (series.find? (fun b => b.1 == dt)).map (·.2)

/-- The per-bar price-update loop of `run_backtest`: for every instrument
with a bar at this timestamp whose close is positive, push it into the
portfolio's price cache. -/
def updatePrices (datas : List (String × List (Ts × ℚ))) (dt : Ts) (P : Portfolio) :
    Portfolio :=
  datas.foldl
    (fun P cd =>
      match priceLookup cd.2 dt with
      | none => P
      | some price => if price ≤ 0 then P else P.updatePrice cd.1 price)
    P

/-- Minute-data detection of `run_backtest`: any of the first (up to) 10
timestamps carrying a non-zero hour or minute. -/
def isMinuteData (trade_days : List Ts) : Bool :=
  (trade_days.take 10).any (fun dt => dt.hour != 0 || dt.minute != 0)

/-- The main loop of `run_backtest` over the remaining timestamps, carrying
the previous timestamp, the portfolio and risk-manager state, and the trace
of observable events.  A `False` risk verdict breaks out of the loop before
any daily recording for that bar; an exception inside `check_portfolio`
propagates (the source logs and re-raises). -/
def btLoop (im : Bool) (datas : List (String × List (Ts × ℚ)))
    (sig : Ts → List (String × ℚ)) (sched : Scheduler) (rm_cfg : FeeCfg) :
    List Ts → Option Ts → Portfolio → RiskManager → List BtEvent →
    Except String (Portfolio × RiskManager × List BtEvent)
  | [], _, P, rm, evs => .ok (P, rm, evs)
  | dt :: rest, prev, P, rm, evs =>
      let boundary : Bool :=
        match prev with
        | none => true
        | some p => dt.day != p.day
      let P1 := if boundary then P.onNewDay else P
      let evs1 := if boundary then evs ++ [BtEvent.newDay] else evs
      let P2 := updatePrices datas dt P1
      let evs2 :=
        if im then
          evs1 ++ (sched.daily_tasks.filter (fun t => Ts.hm dt == t)).map (BtEvent.schedTask dt)
        else evs1
      let r := P2.rebalance dt (sig dt) rm rm_cfg
      let P3 := r.1
      let trades_today := r.2
      match checkPortfolio rm P3.totalValue with
      | .error e => .error e
      | .ok (rm', ok) =>
          if !ok then .ok (P3, rm', evs2 ++ [BtEvent.riskHalt dt])
          else if !im then
            btLoop im datas sig sched rm_cfg rest (some dt) (P3.recordDaily dt trades_today)
              rm' (evs2 ++ [BtEvent.record dt trades_today])
          else
            let step4 : Portfolio × List BtEvent :=
              match prev with
              | none => (P3, evs2)
              | some p =>
                  if dt.day ≠ p.day then
                    (P3.recordDaily p [], evs2 ++ [BtEvent.record p []])
                  else (P3, evs2)
            let step5 : Portfolio × List BtEvent :=
              if rest = [] then
                (step4.1.recordDaily dt trades_today, step4.2 ++ [BtEvent.record dt trades_today])
              else step4
            btLoop im datas sig sched rm_cfg rest (some dt) step5.1 rm' step5.2

/-- `run_backtest` (src/engine/backtest.py): reject an empty data mapping,
build the timestamp axis from the first instrument, detect intraday data,
then run the main loop.  `rebalance` is always invoked with the default
`'rate'` fee mode and the given flat `fee_rate`. -/
def runBacktest (datas : List (String × List (Ts × ℚ))) (sig : Ts → List (String × ℚ))
    (sched : Scheduler) (rm : RiskManager) (fee_rate : ℚ) (init_cash : ℚ) :
    Except String (Portfolio × RiskManager × List BtEvent) :=
  match datas with
  | [] => .error "data dict empty"
  | (_, df0) :: _ =>
      let trade_days := df0.map (·.1)
      if trade_days.isEmpty then .error "no trade days"
      else
        btLoop (isMinuteData trade_days) datas sig sched
          { fee_rate := fee_rate, fee_mode := "rate", fee_rate_pct := 1 / 10000, fee_fixed := 5 }
          trade_days none (Portfolio.mkInit init_cash) rm []

/-- Modelled from the spec: `total_value()` as the spec states it — cash plus
the sum over a position book of shares times the last cached price, an
instrument missing from the cache contributing 0. -/
def specBookValue (prices : Dict ℚ) (book : Dict ℕ) : ℚ :=
  (book.map (fun cs => (cs.2 : ℚ) * dgetD prices cs.1 0)).sum

/-- Modelled from the spec: the net cash flow of a day's trades — a BUY
contributes minus (price·shares + fee), a SELL contributes plus
(price·shares − fee). -/
def specNetFlow (trades : List Trade) : ℚ :=
  (trades.map (fun t =>
    match t.side with
    | Side.BUY => -(t.price * (t.shares : ℚ) + t.fee)
    | Side.SELL => t.price * (t.shares : ℚ) - t.fee)).sum

/-- A sample portfolio state with positive cached prices, holdings in both
books, used to instantiate hypothesis-bearing theorems. -/
def samplePortfolio : Portfolio :=
  { Portfolio.mkInit 100 with
    positions_hold := [("A", 2)]
    positions_today := [("B", 3)]
    prices := [("A", 5), ("B", 7)] }

/-- The event trace of a completed `run_backtest` model run. -/
def runEvents (r : Except String (Portfolio × RiskManager × List BtEvent)) : List BtEvent :=
  match r with
  | .ok x => x.2.2
  | .error _ => []

/-- The accumulated trade log of a completed `run_backtest` model run. -/
def runTradeLog (r : Except String (Portfolio × RiskManager × List BtEvent)) : List Trade :=
  match r with
  | .ok x => x.1.daily_trades
  | .error _ => []

/-- A 3-bar intraday data set: two bars on day 0 and one on day 1, constant
close 10. -/
def sampleIntradayData : List (String × List (Ts × ℚ)) :=
  [("A", [(⟨0,9,30⟩, 10), (⟨0,10,30⟩, 10), (⟨1,9,30⟩, 10)])]

/-- A strategy signal that always requests weight 1/2 in "A". -/
def sampleSignal : Ts → List (String × ℚ) := fun _ => [("A", 1/2)]

/-- A scheduler with one registered after-close callback. -/
def sampleSched : Scheduler := { daily_tasks := [], after_close_tasks := 1 }

/-- A risk manager fresh at construction. -/
def sampleRM : RiskManager :=
  { max_position_pct := 1/2, max_drawdown := 1/5, stop_loss_pct := none, peak_value := none }

/-- `sampleRM` after observing total value 1000. -/
def sampleRM1 : RiskManager :=
  { max_position_pct := 1/2, max_drawdown := 1/5, stop_loss_pct := none,
    peak_value := some 1000 }

/-- The fee configuration `run_backtest` builds for `fee_rate = 0`. -/
def sampleCfg : FeeCfg :=
  { fee_rate := 0, fee_mode := "rate", fee_rate_pct := 1/10000, fee_fixed := 5 }

/-- The BUY trade the sample run executes on the first bar of day 0. -/
def sampleTrade1 : Trade :=
  { date := ⟨0,9,30⟩, code := "A", side := .BUY, price := 10, shares := 50,
    amount := 500, fee := 0 }

/-- The portfolio state after the first bar of the sample run. -/
def sampleP1 : Portfolio :=
  { init_cash := 1000, cash := 500, positions_hold := [], positions_today := [("A", 50)],
    prices := [("A", 10)], equity_curve := [], daily_pnl := [], daily_trades := [sampleTrade1],
    last_total := 1000 }

/-- The final portfolio state of the sample run. -/
def sampleP4 : Portfolio :=
  { init_cash := 1000, cash := 500, positions_hold := [("A", 50)], positions_today := [],
    prices := [("A", 10)],
    equity_curve := [{ date := ⟨0,10,30⟩, total := 1000, cash := 500 },
                     { date := ⟨1,9,30⟩, total := 1000, cash := 500 }],
    daily_pnl := [{ date := ⟨0,10,30⟩, pnl := 0, ret := 0, total := 1000 },
                  { date := ⟨1,9,30⟩, pnl := 0, ret := 0, total := 1000 }],
    daily_trades := [sampleTrade1], last_total := 1000 }

theorem dget_dset_self {α : Type} (d : Dict α) (k : String) (v : α) :
    dget (dset d k v) k = some v := by
  induction d with
  | nil => simp [dset, dget]
  | cons e rest ih =>
      by_cases h : e.1 = k
      · simp [dset, dget, h]
      · simp [dset, dget, h, ih]

theorem dget_dset_ne {α : Type} (d : Dict α) (k k' : String) (v : α)
    (h : k ≠ k') : dget (dset d k v) k' = dget d k' := by
  induction d with
  | nil => simp [dset, dget, h]
  | cons e rest ih =>
      by_cases he : e.1 = k
      · have hne : e.1 ≠ k' := he ▸ h
        simp [dset, dget, he, hne, h]
      · by_cases he' : e.1 = k'
        · have hne : k' ≠ k := fun hk => h hk.symm
          simp [dset, dget, he, he', hne]
        · simp [dset, dget, he, he', ih]

theorem dget_ddel_self {α : Type} (d : Dict α) (k : String) :
    dget (ddel d k) k = none := by
  induction d with
  | nil => simp [ddel, dget]
  | cons e rest ih =>
      by_cases h : e.1 = k
      · simpa [ddel, h] using ih
      · simp [ddel, dget, h, ih]

theorem dget_ddel_ne {α : Type} (d : Dict α) (k k' : String) (h : k ≠ k') :
    dget (ddel d k) k' = dget d k' := by
  induction d with
  | nil => simp [ddel]
  | cons e rest ih =>
      by_cases he : e.1 = k
      · have hne : e.1 ≠ k' := he ▸ h
        simp [ddel, dget, he, hne, ih, h]
      · by_cases he' : e.1 = k'
        · have hne : k' ≠ k := fun hk => h hk.symm
          simp [ddel, dget, he, he', hne]
        · simp [ddel, dget, he, he', ih]

theorem dget_eq_none_of_not_mem_keys {α : Type} (d : Dict α) (k : String)
    (h : k ∉ dkeys d) : dget d k = none := by
  induction d with
  | nil => rfl
  | cons e rest ih =>
      simp only [dkeys, List.map_cons, List.mem_cons] at h
      push_neg at h
      have h1 : e.1 ≠ k := fun hk => h.1 hk.symm
      simp only [dget, h1, if_false]
      exact ih (by simpa [dkeys] using h.2)

theorem getD_dget {α : Type} (d : Dict α) (k : String) (v : α) :
    (dget d k).getD v = dgetD d k v := rfl

theorem addBookValue_eq_spec (prices : Dict ℚ)
    (hpos : ∀ c q, dget prices c = some q → 0 < q) :
    ∀ (book : Dict ℕ) (acc : ℚ),
      addBookValue prices acc book = acc + specBookValue prices book := by
  intro book
  induction book with
  | nil => intro acc; simp [addBookValue, specBookValue]
  | cons cs rest ih =>
      intro acc
      have hstep :
          addBookValue prices acc (cs :: rest) =
            addBookValue prices
              (let price := dgetD prices cs.1 0
               if price > 0 then acc + (cs.2 : ℚ) * price else acc) rest := rfl
      rw [hstep, ih]
      rcases h : dget prices cs.1 with _ | q
      · have hd : dgetD prices cs.1 0 = 0 := by simp [dgetD, h]
        simp [hd, specBookValue]
      · have hq : 0 < q := hpos _ _ h
        have hd : dgetD prices cs.1 0 = q := by simp [dgetD, h]
        simp only [hd, if_pos hq, specBookValue, List.map_cons, List.sum_cons]
        ring

theorem tradeFlow_foldl (l : List Trade) :
    ∀ acc : ℚ,
      l.foldl
        (fun cash_flow t =>
          let amt := t.price * (t.shares : ℚ)
          match t.side with
          | .BUY => cash_flow - (amt + t.fee)
          | .SELL => cash_flow + (amt - t.fee)) acc = acc + specNetFlow l := by
  induction l with
  | nil => intro acc; simp [specNetFlow]
  | cons t rest ih =>
      intro acc
      cases hside : t.side <;>
        simp only [List.foldl_cons, specNetFlow, List.map_cons, List.sum_cons, hside, ih] <;>
        ring

theorem tradeFlow_eq_specNetFlow (l : List Trade) : tradeFlow l = specNetFlow l := by
  have := tradeFlow_foldl l 0
  simpa [tradeFlow] using this

/-- C6: `calc_drawdown` is the single forward peak-tracking scan; on the
equity-value sequence [100, 120, 90, 110, 80, 130] it returns maximum
drawdown (120−80)/120 = 1/3 with the drawdown start at the value-120 point
and the drawdown end at the value-80 point. -/
theorem calc_drawdown_example :
    calcDrawdown
      [(⟨0,0,0⟩, 100), (⟨1,0,0⟩, 120), (⟨2,0,0⟩, 90),
       (⟨3,0,0⟩, 110), (⟨4,0,0⟩, 80), (⟨5,0,0⟩, 130)] =
      { max_drawdown := 1/3, start := some ⟨1,0,0⟩, dd_end := some ⟨4,0,0⟩,
        duration := 3 } := by
  norm_num [calcDrawdown, ddStep]

/-- C4: `record_daily` appends exactly one equity-curve point
{date, total, cash} and exactly one P&L point {date, pnl, return, total},
with pnl = total_value at call time minus the stored baseline minus the net
cash flow of the day's trades (BUY ↦ −(price·shares + fee),
SELL ↦ +(price·shares − fee)), and then moves the baseline to the
just-computed total value. -/
theorem record_daily_spec (P : Portfolio) (date : Ts) (tr : List Trade) :
    (P.recordDaily date tr).equity_curve =
        P.equity_curve ++ [{ date := date, total := P.totalValue, cash := P.cash }] ∧
    (P.recordDaily date tr).daily_pnl =
        P.daily_pnl ++
          [{ date := date,
             pnl := P.totalValue - P.last_total - specNetFlow tr,
             ret := if P.last_total > 0
                    then (P.totalValue - P.last_total - specNetFlow tr) / P.last_total
                    else 0,
             total := P.totalValue }] ∧
    (P.recordDaily date tr).last_total = P.totalValue := by
  unfold Portfolio.recordDaily
  rw [tradeFlow_eq_specNetFlow]
  exact ⟨rfl, rfl, rfl⟩

/-- C3: `total_value()` equals cash plus Σ over both position books of
shares × cached price (missing instrument ↦ 0), given the price-cache
invariant that cached prices are positive (the only writer, `update_price`,
rejects non-positive prices); and `update_price` is a complete no-op for a
non-positive price, otherwise it overwrites only the cache entry for that
instrument, never touching either position book or cash. -/
theorem total_value_and_update_price_spec :
    (∀ P : Portfolio, (∀ c q, dget P.prices c = some q → 0 < q) →
        P.totalValue = P.cash + specBookValue P.prices P.positions_hold
          + specBookValue P.prices P.positions_today) ∧
    (∀ (P : Portfolio) (c : String) (p : ℚ), p ≤ 0 → P.updatePrice c p = P) ∧
    (∀ (P : Portfolio) (c : String) (p : ℚ), 0 < p →
        (P.updatePrice c p).positions_hold = P.positions_hold ∧
        (P.updatePrice c p).positions_today = P.positions_today ∧
        (P.updatePrice c p).cash = P.cash ∧
        dget (P.updatePrice c p).prices c = some p ∧
        ∀ c', c ≠ c' → dget (P.updatePrice c p).prices c' = dget P.prices c') := by
  refine ⟨?_, ?_, ?_⟩
  · intro P hpos
    unfold Portfolio.totalValue
    rw [addBookValue_eq_spec P.prices hpos, addBookValue_eq_spec P.prices hpos]
  · intro P c p hp
    simp [Portfolio.updatePrice, hp]
  · intro P c p hp
    have hnp : ¬(p ≤ 0) := not_le.2 hp
    refine ⟨by simp [Portfolio.updatePrice, hnp], by simp [Portfolio.updatePrice, hnp],
      by simp [Portfolio.updatePrice, hnp], ?_, ?_⟩
    · simp [Portfolio.updatePrice, hnp, dget_dset_self]
    · intro c' hne
      simp [Portfolio.updatePrice, hnp, dget_dset_ne _ _ _ _ hne]

/-- Witness for C3 at a concrete state: prices {A↦5, B↦7}, settled {A↦2},
pending {B↦3}, cash 100. -/
theorem total_value_and_update_price_spec_witness :
    (samplePortfolio.totalValue =
      samplePortfolio.cash + specBookValue samplePortfolio.prices samplePortfolio.positions_hold
        + specBookValue samplePortfolio.prices samplePortfolio.positions_today) ∧
    samplePortfolio.updatePrice "A" (-1) = samplePortfolio ∧
    dget (samplePortfolio.updatePrice "A" 6).prices "A" = some 6 := by
  refine ⟨total_value_and_update_price_spec.1 samplePortfolio ?_,
    total_value_and_update_price_spec.2.1 samplePortfolio "A" (-1) (by norm_num),
    (total_value_and_update_price_spec.2.2 samplePortfolio "A" 6 (by norm_num)).2.2.2.1⟩
  intro c q h
  simp only [samplePortfolio, dget] at h
  split_ifs at h <;> simp_all <;> norm_num [← h]

/-- C9: configuration errors are fatal at construction: `RiskManager.__init__`
raises iff `max_position_pct` or `max_drawdown` is outside (0,1] or a provided
`stop_loss_pct` is outside (0,1]; `Scheduler.run_daily` raises iff the trigger
is neither `"after_close"` nor a 5-character string with `':'` at index 2;
and `run_backtest` raises on an empty instrument-to-data mapping before
processing any bar. -/
theorem config_errors_fatal :
    (∀ (mp md : ℚ) (sl : Option ℚ),
        (∃ e, riskInit mp md sl = Except.error e) ↔
          (¬(0 < mp ∧ mp ≤ 1) ∨ ¬(0 < md ∧ md ≤ 1) ∨
            ∃ x, sl = some x ∧ ¬(0 < x ∧ x ≤ 1))) ∧
    (∀ (s : Scheduler) (t : String),
        (∃ e, s.runDaily t = Except.error e) ↔
          (t ≠ "after_close" ∧ ¬(t.length = 5 ∧ t.data.get? 2 = some ':'))) ∧
    (∀ (sig : Ts → List (String × ℚ)) (sched : Scheduler) (rm : RiskManager)
        (fr ic : ℚ), ∃ e, runBacktest [] sig sched rm fr ic = Except.error e) := by
  refine ⟨?_, ?_, ?_⟩
  · intro mp md sl
    by_cases h1 : 0 < mp ∧ mp ≤ 1
    · by_cases h2 : 0 < md ∧ md ≤ 1
      · cases sl with
        | none => simp [riskInit, h1, h2]
        | some x =>
            by_cases h3 : 0 < x ∧ x ≤ 1
            · simp [riskInit, h1, h2, h3]
            · have h3' : 0 < x → 1 < x := by push_neg at h3; exact h3
              simp [riskInit, h1, h2, h3]
              exact h3'
      · simp [riskInit, h1, h2]
    · simp [riskInit, h1]
  · intro s t
    by_cases h1 : t = "after_close"
    · simp [Scheduler.runDaily, h1]
    · by_cases h2 : t.length = 5 ∧ t.data.get? 2 = some ':'
      · have hok : s.runDaily t =
            Except.ok { s with daily_tasks := s.daily_tasks ++ [t] } := by
          rw [Scheduler.runDaily, if_neg h1, if_pos h2]
        rw [hok]
        simp only [iff_iff_implies_and_implies]
        constructor
        · rintro ⟨e, he⟩
          exact absurd he (by simp)
        · rintro ⟨-, hcon⟩
          exact absurd h2 hcon
      · have herr : s.runDaily t = Except.error "time format error" := by
          rw [Scheduler.runDaily, if_neg h1, if_neg h2]
        rw [herr]
        exact ⟨fun _ => ⟨h1, h2⟩, fun _ => ⟨"time format error", rfl⟩⟩
  · intro sig sched rm fr ic
    exact ⟨"data dict empty", rfl⟩

/-- C5 (counterexample): the first `check_portfolio` call with value 0 sets
the running peak to 0 and the drawdown expression `(peak - value) / peak`
divides by zero — Python raises `ZeroDivisionError` instead of returning a
boolean (shown on a freshly-constructed default RiskManager). -/
theorem check_portfolio_zero_raises :
    checkPortfolio { max_position_pct := 3/10, max_drawdown := 1/5,
                     stop_loss_pct := none, peak_value := none } 0 =
      Except.error "ZeroDivisionError" := by
  norm_num [checkPortfolio]

/-- C5 (amended): for every call with a non-negative value, provided the
updated peak `max(previous peak, value)` is positive (i.e. not every value
seen so far, the current one included, is 0), `check_portfolio` returns a
boolean: it updates the running peak to that maximum (so the peak never
decreases), and returns False iff drawdown `(peak - value)/peak` reaches
`max_drawdown` or the value is negative. -/
theorem check_portfolio_spec (rm : RiskManager) (v : ℚ) (hv : 0 ≤ v)
    (hpk : 0 < max (rm.peak_value.getD v) v) :
    ∃ b : Bool,
      checkPortfolio rm v =
        Except.ok ({ rm with peak_value := some (max (rm.peak_value.getD v) v) }, b) ∧
      ((b = false) ↔
        ((max (rm.peak_value.getD v) v - v) / max (rm.peak_value.getD v) v ≥ rm.max_drawdown
          ∨ v < 0)) ∧
      ∀ p0, rm.peak_value = some p0 → p0 ≤ max (rm.peak_value.getD v) v := by
  have hnv : ¬(v < 0) := not_lt.2 hv
  have hmono : ∀ p0, rm.peak_value = some p0 → p0 ≤ max (rm.peak_value.getD v) v := by
    intro p0 h0
    rw [h0]
    exact le_max_left _ _
  by_cases hdd :
      (max (rm.peak_value.getD v) v - v) / max (rm.peak_value.getD v) v ≥ rm.max_drawdown
  · refine ⟨false, ?_, by simp [hdd], hmono⟩
    rw [checkPortfolio, if_neg hnv]
    simp only [if_neg hpk.ne', if_pos hdd]
  · refine ⟨true, ?_, by simp [hdd, hnv], hmono⟩
    rw [checkPortfolio, if_neg hnv]
    simp only [if_neg hpk.ne', if_neg hdd]

/-- Witness for C5 at a concrete call: a fresh manager checked at value 100. -/
theorem check_portfolio_spec_witness :
    ∃ b : Bool,
      checkPortfolio { max_position_pct := 3/10, max_drawdown := 1/5,
                       stop_loss_pct := none, peak_value := none } 100 =
        Except.ok ({ max_position_pct := 3/10, max_drawdown := 1/5,
                     stop_loss_pct := none,
                     peak_value := some (max ((Option.none (α := ℚ)).getD 100) 100) }, b) ∧
      ((b = false) ↔
        ((max ((Option.none (α := ℚ)).getD 100) 100 - 100) /
            max ((Option.none (α := ℚ)).getD 100) 100 ≥ (1/5 : ℚ) ∨ (100 : ℚ) < 0)) ∧
      ∀ p0, (Option.none (α := ℚ)) = some p0 →
        p0 ≤ max ((Option.none (α := ℚ)).getD 100) 100 :=
  check_portfolio_spec
    { max_position_pct := 3/10, max_drawdown := 1/5, stop_loss_pct := none,
      peak_value := none } 100 (by norm_num) (by norm_num)

theorem rebalEntry_prices (tv : ℚ) (d : Ts) (rm : RiskManager) (cfg : FeeCfg)
    (P : Portfolio) (cw : String × ℚ) :
    (rebalEntry tv d rm cfg P cw).1.prices = P.prices := by
  rcases hpr : dget P.prices cw.1 with _ | p
  · simp [rebalEntry, hpr]
  · simp only [rebalEntry, hpr]
    split_ifs <;> rfl

/-- Case analysis of one `rebalance` loop iteration: either nothing happens
(missing/invalid price, nothing sellable, insufficient cash, or zero diff),
or an executed sell, or an executed buy, each with its explicit result. -/
theorem rebalEntry_cases (tv : ℚ) (d : Ts) (rm : RiskManager) (cfg : FeeCfg)
    (P : Portfolio) (cw : String × ℚ) :
    rebalEntry tv d rm cfg P cw = (P, none) ∨
    (∃ p : ℚ, dget P.prices cw.1 = some p ∧ 0 < p ∧
      targetSharesOf tv rm cw.2 p - currentSharesOf P cw.1 < 0 ∧
      min (-(targetSharesOf tv rm cw.2 p - currentSharesOf P cw.1)).toNat
          (dgetD P.positions_hold cw.1 0) ≠ 0 ∧
      rebalEntry tv d rm cfg P cw =
        (let qty := min (-(targetSharesOf tv rm cw.2 p - currentSharesOf P cw.1)).toNat
            (dgetD P.positions_hold cw.1 0)
         let newShares := dgetD P.positions_hold cw.1 0 - qty
         ({ P with
            cash := P.cash + ((qty : ℚ) * p - calcFee cfg ((qty : ℚ) * p)),
            positions_hold :=
              if newShares = 0 then ddel (dset P.positions_hold cw.1 newShares) cw.1
              else dset P.positions_hold cw.1 newShares },
          some { date := d, code := cw.1, side := .SELL, price := p, shares := qty,
                 amount := (qty : ℚ) * p, fee := calcFee cfg ((qty : ℚ) * p) }))) ∨
    (∃ p : ℚ, dget P.prices cw.1 = some p ∧ 0 < p ∧
      0 < targetSharesOf tv rm cw.2 p - currentSharesOf P cw.1 ∧
      ¬(P.cash < ((targetSharesOf tv rm cw.2 p - currentSharesOf P cw.1 : ℤ) : ℚ) * p +
          calcFee cfg (((targetSharesOf tv rm cw.2 p - currentSharesOf P cw.1 : ℤ) : ℚ) * p)) ∧
      rebalEntry tv d rm cfg P cw =
        (let diff := targetSharesOf tv rm cw.2 p - currentSharesOf P cw.1
         ({ P with
            cash := P.cash - (((diff : ℤ) : ℚ) * p + calcFee cfg (((diff : ℤ) : ℚ) * p)),
            positions_today :=
              dset P.positions_today cw.1 (dgetD P.positions_today cw.1 0 + diff.toNat) },
          some { date := d, code := cw.1, side := .BUY, price := p, shares := diff.toNat,
                 amount := ((diff : ℤ) : ℚ) * p,
                 fee := calcFee cfg (((diff : ℤ) : ℚ) * p) }))) := by
  rcases hpr : dget P.prices cw.1 with _ | p
  · left; simp [rebalEntry, hpr]
  · by_cases hple : p ≤ 0
    · left; simp [rebalEntry, hpr, hple]
    · by_cases hneg : targetSharesOf tv rm cw.2 p - currentSharesOf P cw.1 < 0
      · by_cases hq : min (-(targetSharesOf tv rm cw.2 p - currentSharesOf P cw.1)).toNat
            (dgetD P.positions_hold cw.1 0) = 0
        · left
          simp only [rebalEntry, hpr, if_neg hple, if_pos hneg, if_pos hq]
        · right; left
          refine ⟨p, rfl, lt_of_not_le hple, hneg, hq, ?_⟩
          simp only [rebalEntry, hpr, if_neg hple, if_pos hneg, if_neg hq]
      · by_cases hpos : 0 < targetSharesOf tv rm cw.2 p - currentSharesOf P cw.1
        · by_cases hcash : P.cash <
              ((targetSharesOf tv rm cw.2 p - currentSharesOf P cw.1 : ℤ) : ℚ) * p +
                calcFee cfg (((targetSharesOf tv rm cw.2 p - currentSharesOf P cw.1 : ℤ) : ℚ) * p)
          · left
            simp only [rebalEntry, hpr, if_neg hple, if_neg hneg, if_pos hpos, if_pos hcash]
          · right; right
            refine ⟨p, rfl, lt_of_not_le hple, hpos, hcash, ?_⟩
            simp only [rebalEntry, hpr, if_neg hple, if_neg hneg, if_pos hpos, if_neg hcash]
        · left
          simp only [rebalEntry, hpr, if_neg hple, if_neg hneg, if_neg hpos]

theorem rebalEntry_cash_nonneg (tv : ℚ) (d : Ts) (rm : RiskManager) (cfg : FeeCfg)
    (P : Portfolio) (cw : String × ℚ) (hmode : cfg.fee_mode ≠ "rate+fixed")
    (h0 : 0 ≤ cfg.fee_rate) (h1 : cfg.fee_rate ≤ 1) (hc : 0 ≤ P.cash) :
    0 ≤ (rebalEntry tv d rm cfg P cw).1.cash := by
  rcases rebalEntry_cases tv d rm cfg P cw with h | ⟨p, _, hp, _, _, h⟩ | ⟨p, _, hp, _, hcash, h⟩
  · rw [h]; exact hc
  · rw [h]
    simp only
    have hqp : (0:ℚ) ≤
        ((min (-(targetSharesOf tv rm cw.2 p - currentSharesOf P cw.1)).toNat
          (dgetD P.positions_hold cw.1 0) : ℕ) : ℚ) * p :=
      mul_nonneg (by positivity) hp.le
    rw [calcFee, if_neg hmode]
    nlinarith
  · rw [h]
    simp only
    linarith [not_lt.1 hcash]

theorem rebalEntry_hold_le (tv : ℚ) (d : Ts) (rm : RiskManager) (cfg : FeeCfg)
    (P : Portfolio) (cw : String × ℚ) (c : String) :
    dgetD (rebalEntry tv d rm cfg P cw).1.positions_hold c 0 ≤
      dgetD P.positions_hold c 0 := by
  rcases rebalEntry_cases tv d rm cfg P cw with h | ⟨p, _, hp, _, _, h⟩ | ⟨p, _, hp, _, _, h⟩
  · rw [h]
  · rw [h]
    simp only
    by_cases hc : cw.1 = c
    · subst hc
      split_ifs with hz
      · simp [dgetD, dget_ddel_self]
      · simp only [dgetD, dget_dset_self, Option.getD_some]
        exact Nat.sub_le _ _
    · split_ifs with hz
      · simp [dgetD, dget_ddel_ne _ _ _ hc, dget_dset_ne _ _ _ _ hc]
      · simp [dgetD, dget_dset_ne _ _ _ _ hc]
  · rw [h]

theorem rebalEntry_today_ge (tv : ℚ) (d : Ts) (rm : RiskManager) (cfg : FeeCfg)
    (P : Portfolio) (cw : String × ℚ) (c : String) :
    dgetD P.positions_today c 0 ≤
      dgetD (rebalEntry tv d rm cfg P cw).1.positions_today c 0 := by
  rcases rebalEntry_cases tv d rm cfg P cw with h | ⟨p, _, hp, _, _, h⟩ | ⟨p, _, hp, _, _, h⟩
  · rw [h]
  · rw [h]
  · rw [h]
    simp only
    by_cases hc : cw.1 = c
    · subst hc
      simp only [dgetD, dget_dset_self, Option.getD_some]
      exact Nat.le_add_right _ _
    · simp [dgetD, dget_dset_ne _ _ _ _ hc]

theorem rebalFold_preserve (tv : ℚ) (d : Ts) (rm : RiskManager) (cfg : FeeCfg)
    (Φ : Portfolio → Prop)
    (hstep : ∀ (P : Portfolio) (cw : String × ℚ), Φ P → Φ (rebalEntry tv d rm cfg P cw).1) :
    ∀ (ws : List (String × ℚ)) (acc : Portfolio × List Trade),
      Φ acc.1 → Φ ((ws.foldl (rebalStep tv d rm cfg) acc).1) := by
  intro ws
  induction ws with
  | nil => intro acc h; exact h
  | cons cw rest ih =>
      intro acc h
      exact ih (rebalStep tv d rm cfg acc cw) (hstep acc.1 cw h)

theorem rebalFold_rel (tv : ℚ) (d : Ts) (rm : RiskManager) (cfg : FeeCfg)
    (R : Portfolio → Portfolio → Prop) (hrefl : ∀ P, R P P)
    (htrans : ∀ {a b c}, R a b → R b c → R a c)
    (hstep : ∀ (P : Portfolio) (cw : String × ℚ), R P (rebalEntry tv d rm cfg P cw).1) :
    ∀ (ws : List (String × ℚ)) (acc : Portfolio × List Trade),
      R acc.1 ((ws.foldl (rebalStep tv d rm cfg) acc).1) := by
  intro ws
  induction ws with
  | nil => intro acc; exact hrefl acc.1
  | cons cw rest ih =>
      intro acc
      exact htrans (hstep acc.1 cw) (ih (rebalStep tv d rm cfg acc cw))

theorem rebalFold_acc (tv : ℚ) (d : Ts) (rm : RiskManager) (cfg : FeeCfg) :
    ∀ (l : List (String × ℚ)) (S : Portfolio) (tr : List Trade),
      l.foldl (rebalStep tv d rm cfg) (S, tr) =
        ((l.foldl (rebalStep tv d rm cfg) (S, [])).1,
          tr ++ (l.foldl (rebalStep tv d rm cfg) (S, [])).2) := by
  intro l
  induction l with
  | nil => intro S tr; simp
  | cons cw rest ih =>
      intro S tr
      simp only [List.foldl_cons]
      rw [show rebalStep tv d rm cfg (S, tr) cw =
            ((rebalEntry tv d rm cfg S cw).1, tr ++ (rebalEntry tv d rm cfg S cw).2.toList)
          from rfl,
        show rebalStep tv d rm cfg (S, []) cw =
            ((rebalEntry tv d rm cfg S cw).1, [] ++ (rebalEntry tv d rm cfg S cw).2.toList)
          from rfl]
      rw [ih (rebalEntry tv d rm cfg S cw).1 (tr ++ (rebalEntry tv d rm cfg S cw).2.toList),
        ih (rebalEntry tv d rm cfg S cw).1 ([] ++ (rebalEntry tv d rm cfg S cw).2.toList)]
      simp [List.append_assoc]

theorem pyInt_natCast (n : ℕ) : pyInt ((n : ℕ) : ℚ) = (n : ℤ) := by
  unfold pyInt
  rw [if_pos (by positivity)]
  simp

theorem pyInt_ofNat (n : ℕ) [n.AtLeastTwo] :
    pyInt (OfNat.ofNat n : ℚ) = OfNat.ofNat n := by
  have h1 : ((n : ℕ) : ℚ) = (OfNat.ofNat n : ℚ) := Nat.cast_ofNat
  have h2 : ((n : ℕ) : ℤ) = (OfNat.ofNat n : ℤ) := Nat.cast_ofNat
  have h := pyInt_natCast n
  rw [h1, h2] at h
  exact h

theorem pyInt_zero : pyInt 0 = 0 := by
  simpa using pyInt_natCast 0

theorem pyInt_one : pyInt 1 = 1 := by
  simpa using pyInt_natCast 1

theorem pyInt_eq_floor (q : ℚ) (h : 0 ≤ q) : pyInt q = ⌊q⌋ := by
  unfold pyInt
  rw [if_pos h, Rat.floor_def]
  have hnum : 0 ≤ q.num := Rat.num_nonneg.2 h
  rw [Int.ofNat_tdiv, Int.toNat_of_nonneg hnum,
    Int.tdiv_eq_ediv hnum (Int.natCast_nonneg _)]

theorem rate_ne_rate_fixed : ("rate" : String) ≠ "rate+fixed" := by decide

/-- C1 (counterexample): in fee mode `'rate+fixed'`, a sell whose fixed fee
exceeds the proceeds drives cash negative — from cash 0, holding one settled
share priced 1, a target weight of 0 sells the share for proceeds 1 with fee
1·0.0001 + 5, leaving cash −4.0001. -/
theorem sell_fixed_fee_cash_negative :
    (({ Portfolio.mkInit 0 with
        positions_hold := [("A", 1)]
        prices := [("A", 1)] } : Portfolio)).cash = 0 ∧
    ((({ Portfolio.mkInit 0 with
         positions_hold := [("A", 1)]
         prices := [("A", 1)] } : Portfolio)).rebalance ⟨0,0,0⟩ [("A", 0)]
        { max_position_pct := 3/10, max_drawdown := 1/5, stop_loss_pct := none,
          peak_value := none }
        { fee_rate := 1/1000, fee_mode := "rate+fixed", fee_rate_pct := 1/10000,
          fee_fixed := 5 }).1.cash = -40001/10000 := by
  constructor
  · norm_num [Portfolio.mkInit]
  · norm_num [Portfolio.rebalance, rebalStep, rebalEntry, targetSharesOf, currentSharesOf,
      capPosition, pyInt, calcFee, dget, dgetD, dset, ddel, Portfolio.totalValue, addBookValue,
      Portfolio.mkInit]

/-- C1 (amended): starting from non-negative cash, no operation drives cash
negative in fee mode `'rate'` with a fee rate in [0, 1] — `rebalance`
preserves non-negative cash and `on_new_day`, `update_price`, `record_daily`
never change cash — and in *every* fee mode a buy whose cost plus fee
exceeds available cash is rejected in its entirety, leaving the whole
portfolio state (cash in particular) unchanged and producing no trade.
(The original claim fails on the `'rate+fixed'` sell leg when the fixed fee
exceeds the proceeds.) -/
theorem cash_nonneg_and_buy_rejection :
    (∀ (P : Portfolio) (d : Ts) (ws : List (String × ℚ)) (rm : RiskManager) (cfg : FeeCfg),
        cfg.fee_mode ≠ "rate+fixed" → 0 ≤ cfg.fee_rate → cfg.fee_rate ≤ 1 →
        0 ≤ P.cash → 0 ≤ (P.rebalance d ws rm cfg).1.cash) ∧
    (∀ (P : Portfolio) (d : Ts) (c : String) (w : ℚ) (rm : RiskManager) (cfg : FeeCfg) (p : ℚ),
        dget P.prices c = some p → 0 < p →
        0 < targetSharesOf P.totalValue rm w p - currentSharesOf P c →
        P.cash < ((targetSharesOf P.totalValue rm w p - currentSharesOf P c : ℤ) : ℚ) * p +
          calcFee cfg (((targetSharesOf P.totalValue rm w p - currentSharesOf P c : ℤ) : ℚ) * p) →
        P.rebalance d [(c, w)] rm cfg = (P, [])) ∧
    (∀ P : Portfolio, P.onNewDay.cash = P.cash) ∧
    (∀ (P : Portfolio) (c : String) (q : ℚ), (P.updatePrice c q).cash = P.cash) ∧
    (∀ (P : Portfolio) (d : Ts) (tr : List Trade), (P.recordDaily d tr).cash = P.cash) := by
  refine ⟨?_, ?_, ?_, ?_, ?_⟩
  · intro P d ws rm cfg hm h0 h1 hc
    have h := rebalFold_preserve P.totalValue d rm cfg (fun Q => 0 ≤ Q.cash)
      (fun Q cw hq => rebalEntry_cash_nonneg P.totalValue d rm cfg Q cw hm h0 h1 hq)
      ws (P, []) hc
    simpa [Portfolio.rebalance] using h
  · intro P d c w rm cfg p hpr hp hpos hcash
    have he : rebalEntry P.totalValue d rm cfg P (c, w) = (P, none) := by
      rcases rebalEntry_cases P.totalValue d rm cfg P (c, w) with
        h | ⟨p', hp', _, hneg, _, _⟩ | ⟨p', hp', _, _, hc', _⟩
      · exact h
      · rw [hpr] at hp'
        obtain rfl := Option.some.inj hp'
        have hneg' : targetSharesOf P.totalValue rm w p - currentSharesOf P c < 0 := hneg
        omega
      · rw [hpr] at hp'
        obtain rfl := Option.some.inj hp'
        exact absurd hcash hc'
    simp only [Portfolio.rebalance, List.foldl_cons, List.foldl_nil, rebalStep, he]
    simp
  · intro P; rfl
  · intro P c q
    by_cases h : q ≤ 0 <;> simp [Portfolio.updatePrice, h]
  · intro P d tr; rfl

/-- Witness for C1 at concrete inputs: a 'rate'-mode rebalance from the
sample state keeps cash non-negative, and a concrete over-sized buy is
rejected leaving the state unchanged with no trade. -/
theorem cash_nonneg_and_buy_rejection_witness :
    0 ≤ ((samplePortfolio.rebalance ⟨0,0,0⟩ [("A", 1)]
      { max_position_pct := 1, max_drawdown := 1/5, stop_loss_pct := none, peak_value := none }
      { fee_rate := 1/1000, fee_mode := "rate", fee_rate_pct := 1/10000,
        fee_fixed := 5 }).1.cash) ∧
    ({ Portfolio.mkInit 100 with prices := [("B", 10)] } : Portfolio).rebalance ⟨0,0,0⟩
      [("B", 1)]
      { max_position_pct := 1, max_drawdown := 1/5, stop_loss_pct := none, peak_value := none }
      { fee_rate := 1/1000, fee_mode := "rate", fee_rate_pct := 1/10000, fee_fixed := 5 } =
      ({ Portfolio.mkInit 100 with prices := [("B", 10)] }, []) := by
  constructor
  · exact cash_nonneg_and_buy_rejection.1 samplePortfolio ⟨0,0,0⟩ [("A", 1)] _ _
      (by decide) (by norm_num) (by norm_num) (by norm_num [samplePortfolio, Portfolio.mkInit])
  · exact cash_nonneg_and_buy_rejection.2.1 _ ⟨0,0,0⟩ "B" 1 _ _ 10
      (by norm_num [dget])
      (by norm_num)
      (by norm_num [targetSharesOf, currentSharesOf, capPosition, Portfolio.totalValue,
        addBookValue, Portfolio.mkInit, dget, dgetD, pyInt_eq_floor])
      (by norm_num [targetSharesOf, currentSharesOf, capPosition, Portfolio.totalValue,
        addBookValue, Portfolio.mkInit, dget, dgetD, pyInt_eq_floor, calcFee,
        rate_ne_rate_fixed])

/-- C10: within one `rebalance` call the target share count of every
instrument is computed from the single `total_value()` snapshot taken before
any trade of the call: processing `l1 ++ l2` equals processing `l1`, then
processing `l2` from the resulting (traded) portfolio state but still with
the original snapshot `P.totalValue` — trades executed for earlier
instruments change cash and positions yet never the snapshot later targets
are computed from. -/
theorem rebalance_single_snapshot (P : Portfolio) (d : Ts) (rm : RiskManager)
    (cfg : FeeCfg) (l1 l2 : List (String × ℚ)) :
    P.rebalance d (l1 ++ l2) rm cfg =
      (let r1 := l1.foldl (rebalStep P.totalValue d rm cfg) (P, [])
       let r2 := l2.foldl (rebalStep P.totalValue d rm cfg) (r1.1, [])
       ({ r2.1 with daily_trades := r2.1.daily_trades ++ (r1.2 ++ r2.2) }, r1.2 ++ r2.2)) := by
  simp only [Portfolio.rebalance, List.foldl_append]
  rcases hr1 : l1.foldl (rebalStep P.totalValue d rm cfg) (P, []) with ⟨S1, T1⟩
  rw [rebalFold_acc P.totalValue d rm cfg l2 S1 T1]

theorem mem_dkeys_dset {α : Type} (d : Dict α) (k : String) (v : α) (x : String) :
    x ∈ dkeys (dset d k v) ↔ x ∈ dkeys d ∨ x = k := by
  induction d with
  | nil => simp [dset, dkeys]
  | cons e rest ih =>
      by_cases he : e.1 = k
      · subst he
        simp [dset, dkeys]
        tauto
      · simp only [dset, if_neg he, dkeys, List.map_cons, List.mem_cons]
        rw [show (List.map (fun x => x.1) (dset rest k v)) = dkeys (dset rest k v) from rfl, ih]
        simp [dkeys]
        tauto

theorem dnodup_dset {α : Type} (d : Dict α) (k : String) (v : α) (h : DNodup d) :
    DNodup (dset d k v) := by
  induction d with
  | nil => simp [dset, DNodup, dkeys]
  | cons e rest ih =>
      have h' : e.1 ∉ dkeys rest ∧ DNodup rest := by
        simpa [DNodup, dkeys] using h
      by_cases he : e.1 = k
      · subst he
        simpa [dset, DNodup, dkeys] using h
      · simp only [dset, if_neg he, DNodup, dkeys, List.map_cons, List.nodup_cons]
        constructor
        · intro hmem
          rcases (mem_dkeys_dset rest k v e.1).1 (by simpa [dkeys] using hmem) with h1 | h1
          · exact h'.1 h1
          · exact he h1
        · simpa [DNodup, dkeys] using ih h'.2

theorem onNewDay_fold (today : Dict ℕ) (hn : DNodup today) :
    ∀ (hold : Dict ℕ) (c : String),
      dgetD (today.foldl (fun h cs => dset h cs.1 (dgetD h cs.1 0 + cs.2)) hold) c 0 =
        dgetD hold c 0 + dgetD today c 0 := by
  induction today with
  | nil => intro hold c; simp [dgetD, dget]
  | cons cs rest ih =>
      intro hold c
      have hparts : cs.1 ∉ dkeys rest ∧ DNodup rest := by
        simpa [DNodup, dkeys] using hn
      simp only [List.foldl_cons]
      rw [ih hparts.2 (dset hold cs.1 (dgetD hold cs.1 0 + cs.2)) c]
      by_cases hc : cs.1 = c
      · subst hc
        rw [show dgetD (dset hold cs.1 (dgetD hold cs.1 0 + cs.2)) cs.1 0 =
              dgetD hold cs.1 0 + cs.2 by simp [dgetD, dget_dset_self]]
        rw [show dgetD rest cs.1 0 = 0 by
              simp [dgetD, dget_eq_none_of_not_mem_keys rest cs.1 hparts.1]]
        rw [show dgetD (cs :: rest) cs.1 0 = cs.2 by simp [dgetD, dget]]
        omega
      · rw [show dgetD (dset hold cs.1 (dgetD hold cs.1 0 + cs.2)) c 0 =
              dgetD hold c 0 by simp [dgetD, dget_dset_ne _ _ _ _ hc]]
        rw [show dgetD (cs :: rest) c 0 = dgetD rest c 0 by simp [dgetD, dget, hc]]

/-- C2: T+1 invariant.  (i) Across any `rebalance` call, the settled book
never gains shares (buys go only to the pending book) and the pending book
never loses shares (same-day purchases can never be sold); (ii) a sell for
one instrument removes exactly min(requested reduction, settled shares) from
the settled book and leaves the pending book untouched; (iii) `on_new_day`
adds every pending entry onto the settled balance and empties the pending
book. -/
theorem t_plus_one_invariant :
    (∀ (P : Portfolio) (d : Ts) (ws : List (String × ℚ)) (rm : RiskManager)
        (cfg : FeeCfg) (c : String),
        dgetD (P.rebalance d ws rm cfg).1.positions_hold c 0 ≤
            dgetD P.positions_hold c 0 ∧
        dgetD P.positions_today c 0 ≤
            dgetD (P.rebalance d ws rm cfg).1.positions_today c 0) ∧
    (∀ (P : Portfolio) (d : Ts) (c : String) (w : ℚ) (rm : RiskManager) (cfg : FeeCfg)
        (p : ℚ), dget P.prices c = some p → 0 < p →
        targetSharesOf P.totalValue rm w p < currentSharesOf P c →
        dgetD (P.rebalance d [(c, w)] rm cfg).1.positions_hold c 0 =
          dgetD P.positions_hold c 0 -
            min (currentSharesOf P c - targetSharesOf P.totalValue rm w p).toNat
              (dgetD P.positions_hold c 0) ∧
        (P.rebalance d [(c, w)] rm cfg).1.positions_today = P.positions_today) ∧
    (∀ P : Portfolio, DNodup P.positions_today →
        (∀ c, dgetD P.onNewDay.positions_hold c 0 =
          dgetD P.positions_hold c 0 + dgetD P.positions_today c 0) ∧
        P.onNewDay.positions_today = []) := by
  refine ⟨?_, ?_, ?_⟩
  · intro P d ws rm cfg c
    have h := rebalFold_rel P.totalValue d rm cfg
      (fun A B => (∀ c, dgetD B.positions_hold c 0 ≤ dgetD A.positions_hold c 0) ∧
        (∀ c, dgetD A.positions_today c 0 ≤ dgetD B.positions_today c 0))
      (fun A => ⟨fun _ => le_refl _, fun _ => le_refl _⟩)
      (fun hab hbc => ⟨fun c => (hbc.1 c).trans (hab.1 c), fun c => (hab.2 c).trans (hbc.2 c)⟩)
      (fun A cw => ⟨fun c => rebalEntry_hold_le P.totalValue d rm cfg A cw c,
        fun c => rebalEntry_today_ge P.totalValue d rm cfg A cw c⟩)
      ws (P, [])
    exact ⟨h.1 c, h.2 c⟩
  · intro P d c w rm cfg p hpr hp hlt
    have hdiff : targetSharesOf P.totalValue rm w p - currentSharesOf P c < 0 := by omega
    have hneg : -(targetSharesOf P.totalValue rm w p - currentSharesOf P c) =
        currentSharesOf P c - targetSharesOf P.totalValue rm w p := by ring
    by_cases hq : min (-(targetSharesOf P.totalValue rm w p - currentSharesOf P c)).toNat
        (dgetD P.positions_hold c 0) = 0
    · have he : rebalEntry P.totalValue d rm cfg P (c, w) = (P, none) := by
        simp only [rebalEntry, hpr, if_neg (not_le.2 hp), if_pos hdiff, if_pos hq]
      rw [hneg] at hq
      constructor
      · simp only [Portfolio.rebalance, List.foldl_cons, List.foldl_nil, rebalStep, he]
        omega
      · simp only [Portfolio.rebalance, List.foldl_cons, List.foldl_nil, rebalStep, he]
    · constructor
      · simp only [Portfolio.rebalance, List.foldl_cons, List.foldl_nil, rebalStep,
          rebalEntry, hpr, if_neg (not_le.2 hp), if_pos hdiff, if_neg hq]
        rw [hneg]
        by_cases hz : dgetD P.positions_hold c 0 -
            min (currentSharesOf P c - targetSharesOf P.totalValue rm w p).toNat
              (dgetD P.positions_hold c 0) = 0
        · rw [if_pos hz]
          rw [show dgetD (ddel (dset P.positions_hold c
                (dgetD P.positions_hold c 0 -
                  min (currentSharesOf P c - targetSharesOf P.totalValue rm w p).toNat
                    (dgetD P.positions_hold c 0))) c) c 0 = 0 by
            simp [dgetD, dget_ddel_self]]
          omega
        · rw [if_neg hz]
          simp [dgetD, dget_dset_self]
      · simp only [Portfolio.rebalance, List.foldl_cons, List.foldl_nil, rebalStep,
          rebalEntry, hpr, if_neg (not_le.2 hp), if_pos hdiff, if_neg hq]
  · intro P hn
    exact ⟨fun c => onNewDay_fold P.positions_today hn P.positions_hold c, rfl⟩

/-- Witness for C2 at a concrete state: settled {A↦2}, pending {B↦3},
prices {A↦5, B↦7}; a weight-0 sell of A removes both settled shares and
leaves the pending book untouched; `on_new_day` merges the pending book. -/
theorem t_plus_one_invariant_witness :
    (dgetD (samplePortfolio.rebalance ⟨0,0,0⟩ [("A", 0)]
        { max_position_pct := 1, max_drawdown := 1/5, stop_loss_pct := none, peak_value := none }
        { fee_rate := 1/1000, fee_mode := "rate", fee_rate_pct := 1/10000,
          fee_fixed := 5 }).1.positions_hold "A" 0 =
      dgetD samplePortfolio.positions_hold "A" 0 -
        min (currentSharesOf samplePortfolio "A" -
            targetSharesOf samplePortfolio.totalValue
              { max_position_pct := 1, max_drawdown := 1/5, stop_loss_pct := none,
                peak_value := none } 0 5).toNat
          (dgetD samplePortfolio.positions_hold "A" 0)) ∧
    (∀ c, dgetD samplePortfolio.onNewDay.positions_hold c 0 =
      dgetD samplePortfolio.positions_hold c 0 + dgetD samplePortfolio.positions_today c 0) := by
  constructor
  · exact (t_plus_one_invariant.2.1 samplePortfolio ⟨0,0,0⟩ "A" 0 _ _ 5
      (by norm_num [samplePortfolio, Portfolio.mkInit, dget])
      (by norm_num)
      (by norm_num [targetSharesOf, currentSharesOf, capPosition, Portfolio.totalValue,
        addBookValue, samplePortfolio, Portfolio.mkInit, dget, dgetD, pyInt_eq_floor,
        show ("B" : String) ≠ "A" from by decide,
        show ("A" : String) ≠ "B" from by decide])).1
  · exact (t_plus_one_invariant.2.2 samplePortfolio
      (by norm_num [samplePortfolio, Portfolio.mkInit, DNodup, dkeys])).1

/-- C7: round trip.  From any state with a cached price p for instrument c
and no existing position in it, a rebalance that buys N shares at p (N the
computed target, affordable), then `on_new_day`, then a weight-0 rebalance
that sells the same N shares at the same price, leaves cash at its pre-trade
level minus exactly the buy fee plus the sell fee, and leaves no entry for
the instrument in either position book.  Holds for every fee configuration. -/
theorem round_trip (P : Portfolio) (d d' : Ts) (c : String) (w : ℚ)
    (rm : RiskManager) (cfg : FeeCfg) (p : ℚ) (N : ℤ)
    (hpr : dget P.prices c = some p) (hp : 0 < p)
    (hhold : dgetD P.positions_hold c 0 = 0)
    (htoday : dgetD P.positions_today c 0 = 0)
    (hnodup : DNodup P.positions_today)
    (hmp : 0 ≤ rm.max_position_pct)
    (hN : N = targetSharesOf P.totalValue rm w p) (hNpos : 0 < N)
    (hcash : ¬(P.cash < (N : ℚ) * p + calcFee cfg ((N : ℚ) * p))) :
    ((P.rebalance d [(c, w)] rm cfg).1.onNewDay.rebalance d' [(c, 0)] rm cfg).1.cash =
        P.cash - calcFee cfg ((N : ℚ) * p) - calcFee cfg ((N : ℚ) * p) ∧
    dget ((P.rebalance d [(c, w)] rm cfg).1.onNewDay.rebalance d' [(c, 0)]
        rm cfg).1.positions_hold c = none ∧
    dget ((P.rebalance d [(c, w)] rm cfg).1.onNewDay.rebalance d' [(c, 0)]
        rm cfg).1.positions_today c = none := by
  have hcur : currentSharesOf P c = 0 := by
    simp [currentSharesOf, hhold, htoday]
  have hdiff_eq : targetSharesOf P.totalValue rm w p - currentSharesOf P c = N := by omega
  have hE1 : rebalEntry P.totalValue d rm cfg P (c, w) =
      ({ P with
          cash := P.cash - ((N : ℚ) * p + calcFee cfg ((N : ℚ) * p)),
          positions_today := dset P.positions_today c (dgetD P.positions_today c 0 + N.toNat) },
        some { date := d, code := c, side := .BUY, price := p, shares := N.toNat,
               amount := (N : ℚ) * p, fee := calcFee cfg ((N : ℚ) * p) }) := by
    simp only [rebalEntry, hpr, if_neg (not_le.2 hp), hdiff_eq]
    rw [if_neg (show ¬(N < 0) by omega), if_pos hNpos, if_neg hcash]
  have hreb1 : (P.rebalance d [(c, w)] rm cfg).1 =
      { P with
        cash := P.cash - ((N : ℚ) * p + calcFee cfg ((N : ℚ) * p)),
        positions_today := dset P.positions_today c (dgetD P.positions_today c 0 + N.toNat),
        daily_trades := P.daily_trades ++
          [{ date := d, code := c, side := .BUY, price := p, shares := N.toNat,
             amount := (N : ℚ) * p, fee := calcFee cfg ((N : ℚ) * p) }] } := by
    simp only [Portfolio.rebalance, List.foldl_cons, List.foldl_nil, rebalStep, hE1]
    simp
  have hnodup' : DNodup (dset P.positions_today c (dgetD P.positions_today c 0 + N.toNat)) :=
    dnodup_dset _ _ _ hnodup
  have h2hold : dgetD (P.rebalance d [(c, w)] rm cfg).1.onNewDay.positions_hold c 0 =
      N.toNat := by
    rw [hreb1]
    have hfold := onNewDay_fold
      (dset P.positions_today c (dgetD P.positions_today c 0 + N.toNat)) hnodup'
      P.positions_hold c
    simp only [Portfolio.onNewDay]
    rw [hfold, hhold]
    rw [show dgetD (dset P.positions_today c (dgetD P.positions_today c 0 + N.toNat)) c 0 =
        dgetD P.positions_today c 0 + N.toNat by simp [dgetD, dget_dset_self]]
    rw [htoday]
    omega
  have h2today : (P.rebalance d [(c, w)] rm cfg).1.onNewDay.positions_today = [] := rfl
  have h2cash : (P.rebalance d [(c, w)] rm cfg).1.onNewDay.cash =
      P.cash - ((N : ℚ) * p + calcFee cfg ((N : ℚ) * p)) := by
    rw [show (P.rebalance d [(c, w)] rm cfg).1.onNewDay.cash =
        (P.rebalance d [(c, w)] rm cfg).1.cash from rfl, hreb1]
  have hpr2 : dget (P.rebalance d [(c, w)] rm cfg).1.onNewDay.prices c = some p := by
    rw [show (P.rebalance d [(c, w)] rm cfg).1.onNewDay.prices =
        (P.rebalance d [(c, w)] rm cfg).1.prices from rfl, hreb1]
    exact hpr
  generalize hQ : (P.rebalance d [(c, w)] rm cfg).1.onNewDay = Q at h2hold h2today h2cash hpr2 ⊢
  have htgt2 : targetSharesOf Q.totalValue rm 0 p = 0 := by
    simp [targetSharesOf, capPosition, min_eq_left hmp, pyInt_zero]
  have hcur2 : currentSharesOf Q c = N := by
    simp only [currentSharesOf, h2hold, h2today]
    rw [show dgetD ([] : Dict ℕ) c 0 = 0 from rfl]
    simp [Int.toNat_of_nonneg hNpos.le]
  have hdiff2 : targetSharesOf Q.totalValue rm 0 p - currentSharesOf Q c = -N := by
    rw [htgt2, hcur2]; ring
  have hE2 : rebalEntry Q.totalValue d' rm cfg Q (c, 0) =
      ({ Q with
          cash := Q.cash + ((N.toNat : ℚ) * p - calcFee cfg ((N.toNat : ℚ) * p)),
          positions_hold := ddel (dset Q.positions_hold c 0) c },
        some { date := d', code := c, side := .SELL, price := p, shares := N.toNat,
               amount := (N.toNat : ℚ) * p, fee := calcFee cfg ((N.toNat : ℚ) * p) }) := by
    simp only [rebalEntry, hpr2, if_neg (not_le.2 hp), hdiff2, h2hold, neg_neg, min_self,
      Nat.sub_self]
    rw [if_pos (show -N < 0 by omega), if_neg (show ¬(N.toNat = 0) by omega)]
    simp
  have hreb2cash : (Q.rebalance d' [(c, 0)] rm cfg).1.cash =
      Q.cash + ((N.toNat : ℚ) * p - calcFee cfg ((N.toNat : ℚ) * p)) := by
    simp only [Portfolio.rebalance, List.foldl_cons, List.foldl_nil, rebalStep, hE2]
  have hreb2hold : (Q.rebalance d' [(c, 0)] rm cfg).1.positions_hold =
      ddel (dset Q.positions_hold c 0) c := by
    simp only [Portfolio.rebalance, List.foldl_cons, List.foldl_nil, rebalStep, hE2]
  have hreb2today : (Q.rebalance d' [(c, 0)] rm cfg).1.positions_today =
      Q.positions_today := by
    simp only [Portfolio.rebalance, List.foldl_cons, List.foldl_nil, rebalStep, hE2]
  have hNcast : ((N.toNat : ℕ) : ℚ) = (N : ℚ) := by
    rw [show ((N.toNat : ℕ) : ℚ) = ((N.toNat : ℤ) : ℚ) by push_cast; ring,
      Int.toNat_of_nonneg hNpos.le]
  refine ⟨?_, ?_, ?_⟩
  · rw [hreb2cash, h2cash, hNcast]
    ring
  · rw [hreb2hold]
    exact dget_ddel_self _ _
  · rw [hreb2today, h2today]
    rfl

/-- Witness for C7 on the spec's scenario: 1,000,000 cash, price 100, weight
1/2 buys N = 5000 shares; after the T+1 unfreeze a weight-0 rebalance sells
them; final cash is 999,000 (exactly the two 500 fees) and the instrument is
absent from both books. -/
theorem round_trip_witness :
    ((((Portfolio.mkInit 1000000).updatePrice "A" 100).rebalance ⟨0,0,0⟩ [("A", 1/2)]
        { max_position_pct := 1/2, max_drawdown := 1/5, stop_loss_pct := none,
          peak_value := none }
        { fee_rate := 1/1000, fee_mode := "rate", fee_rate_pct := 1/10000,
          fee_fixed := 5 }).1.onNewDay.rebalance ⟨1,0,0⟩ [("A", 0)]
        { max_position_pct := 1/2, max_drawdown := 1/5, stop_loss_pct := none,
          peak_value := none }
        { fee_rate := 1/1000, fee_mode := "rate", fee_rate_pct := 1/10000,
          fee_fixed := 5 }).1.cash = 999000 ∧
    dget ((((Portfolio.mkInit 1000000).updatePrice "A" 100).rebalance ⟨0,0,0⟩ [("A", 1/2)]
        { max_position_pct := 1/2, max_drawdown := 1/5, stop_loss_pct := none,
          peak_value := none }
        { fee_rate := 1/1000, fee_mode := "rate", fee_rate_pct := 1/10000,
          fee_fixed := 5 }).1.onNewDay.rebalance ⟨1,0,0⟩ [("A", 0)]
        { max_position_pct := 1/2, max_drawdown := 1/5, stop_loss_pct := none,
          peak_value := none }
        { fee_rate := 1/1000, fee_mode := "rate", fee_rate_pct := 1/10000,
          fee_fixed := 5 }).1.positions_hold "A" = none := by
  have h := round_trip ((Portfolio.mkInit 1000000).updatePrice "A" 100) ⟨0,0,0⟩ ⟨1,0,0⟩
    "A" (1/2)
    { max_position_pct := 1/2, max_drawdown := 1/5, stop_loss_pct := none, peak_value := none }
    { fee_rate := 1/1000, fee_mode := "rate", fee_rate_pct := 1/10000, fee_fixed := 5 }
    100 5000
    (by norm_num [Portfolio.updatePrice, Portfolio.mkInit, dset, dget])
    (by norm_num)
    (by norm_num [Portfolio.updatePrice, Portfolio.mkInit, dgetD, dget])
    (by norm_num [Portfolio.updatePrice, Portfolio.mkInit, dgetD, dget])
    (by norm_num [Portfolio.updatePrice, Portfolio.mkInit, DNodup, dkeys])
    (by norm_num)
    (by norm_num [targetSharesOf, capPosition, Portfolio.totalValue, addBookValue,
      Portfolio.updatePrice, Portfolio.mkInit, pyInt_eq_floor])
    (by norm_num)
    (by norm_num [calcFee, rate_ne_rate_fixed, Portfolio.updatePrice, Portfolio.mkInit])
  refine ⟨?_, h.2.1⟩
  rw [h.1]
  norm_num [calcFee, rate_ne_rate_fixed, Portfolio.updatePrice, Portfolio.mkInit]

theorem toNat_fifty : ((50:ℤ)).toNat = 50 := rfl

theorem c8_step1 :
    btLoop true sampleIntradayData sampleSignal sampleSched sampleCfg
      [⟨0,9,30⟩, ⟨0,10,30⟩, ⟨1,9,30⟩] none (Portfolio.mkInit 1000) sampleRM [] =
    btLoop true sampleIntradayData sampleSignal sampleSched sampleCfg
      [⟨0,10,30⟩, ⟨1,9,30⟩] (some ⟨0,9,30⟩) sampleP1 sampleRM1 [BtEvent.newDay] := by
  rw [btLoop.eq_2]
  norm_num [updatePrices, priceLookup, sampleIntradayData, sampleSignal, sampleSched,
    sampleRM, sampleRM1, sampleP1, sampleTrade1, Portfolio.mkInit, Portfolio.onNewDay,
    Portfolio.rebalance, rebalStep, rebalEntry, targetSharesOf, currentSharesOf, capPosition,
    pyInt_eq_floor, calcFee, checkPortfolio, Portfolio.totalValue, addBookValue, dget, dgetD,
    dset, ddel, sampleCfg, Portfolio.updatePrice, List.foldl_cons, List.foldl_nil,
    List.filter, Option.toList, toNat_fifty, List.cons_ne_nil,
    rate_ne_rate_fixed, Ts.hm, twoDigits]

theorem c8_step2 :
    btLoop true sampleIntradayData sampleSignal sampleSched sampleCfg
      [⟨0,10,30⟩, ⟨1,9,30⟩] (some ⟨0,9,30⟩) sampleP1 sampleRM1 [BtEvent.newDay] =
    btLoop true sampleIntradayData sampleSignal sampleSched sampleCfg
      [⟨1,9,30⟩] (some ⟨0,10,30⟩) sampleP1 sampleRM1 [BtEvent.newDay] := by
  rw [btLoop.eq_3]
  norm_num [updatePrices, priceLookup, sampleIntradayData, sampleSignal, sampleSched,
    sampleRM, sampleRM1, sampleP1, sampleTrade1, Portfolio.mkInit, Portfolio.onNewDay,
    Portfolio.rebalance, rebalStep, rebalEntry, targetSharesOf, currentSharesOf, capPosition,
    pyInt_eq_floor, calcFee, checkPortfolio, Portfolio.totalValue, addBookValue, dget, dgetD,
    dset, ddel, sampleCfg, Portfolio.updatePrice, List.foldl_cons, List.foldl_nil,
    List.filter, Option.toList, toNat_fifty, List.cons_ne_nil,
    rate_ne_rate_fixed, Ts.hm, twoDigits]

theorem c8_step3 :
    btLoop true sampleIntradayData sampleSignal sampleSched sampleCfg
      [⟨1,9,30⟩] (some ⟨0,10,30⟩) sampleP1 sampleRM1 [BtEvent.newDay] =
    Except.ok (sampleP4, sampleRM1,
      [BtEvent.newDay, BtEvent.newDay,
       BtEvent.record ⟨0,10,30⟩ [], BtEvent.record ⟨1,9,30⟩ []]) := by
  rw [btLoop.eq_3]
  norm_num [updatePrices, priceLookup, sampleIntradayData, sampleSignal, sampleSched,
    sampleRM, sampleRM1, sampleP1, sampleP4, sampleTrade1, Portfolio.mkInit,
    Portfolio.onNewDay, Portfolio.rebalance, rebalStep, rebalEntry, targetSharesOf,
    currentSharesOf, capPosition, pyInt_eq_floor, calcFee, checkPortfolio,
    Portfolio.recordDaily, tradeFlow, Portfolio.totalValue, addBookValue, dget, dgetD,
    dset, ddel, sampleCfg, Portfolio.updatePrice, List.foldl_cons, List.foldl_nil,
    List.filter, Option.toList, toNat_fifty, List.cons_ne_nil,
    rate_ne_rate_fixed, Ts.hm, twoDigits, btLoop]

theorem c8_run :
    runBacktest sampleIntradayData sampleSignal sampleSched sampleRM 0 1000 =
    Except.ok (sampleP4, sampleRM1,
      [BtEvent.newDay, BtEvent.newDay,
       BtEvent.record ⟨0,10,30⟩ [], BtEvent.record ⟨1,9,30⟩ []]) := by
  have h0 : runBacktest sampleIntradayData sampleSignal sampleSched sampleRM 0 1000 =
      btLoop true sampleIntradayData sampleSignal sampleSched sampleCfg
        [⟨0,9,30⟩, ⟨0,10,30⟩, ⟨1,9,30⟩] none (Portfolio.mkInit 1000) sampleRM [] := by
    norm_num [runBacktest, isMinuteData, sampleIntradayData, sampleCfg]
    rfl
  rw [h0, c8_step1, c8_step2, c8_step3]

/-- C8 (code bug): on the sample 3-bar intraday run — two bars on day 0, the
first of which buys 50 shares, then one bar on day 1 — with one registered
after-close callback, the engine records the ending day 0 with an *empty*
trade list (dropping the day's BUY from that day's P&L attribution) and
never dispatches the after-close callbacks, even though the trade log shows
the day-0 BUY executed. -/
theorem intraday_recording_drops_trades_and_after_close :
    runEvents (runBacktest sampleIntradayData sampleSignal sampleSched sampleRM 0 1000) =
      [BtEvent.newDay, BtEvent.newDay,
       BtEvent.record ⟨0,10,30⟩ [], BtEvent.record ⟨1,9,30⟩ []] ∧
    BtEvent.afterClose ∉
      runEvents (runBacktest sampleIntradayData sampleSignal sampleSched sampleRM 0 1000) ∧
    sampleSched.after_close_tasks = 1 ∧
    runTradeLog (runBacktest sampleIntradayData sampleSignal sampleSched sampleRM 0 1000) =
      [sampleTrade1] ∧
    sampleTrade1.date.day = 0 ∧ sampleTrade1.side = Side.BUY := by
  refine ⟨by simp [runEvents, c8_run], ?_, rfl, by simp [runTradeLog, c8_run, sampleP4], rfl, rfl⟩
  simp [runEvents, c8_run]

/-- Witness for C9 at concrete inputs: max_position_pct = 2 is rejected, the
4-character trigger "0930" is rejected, and the empty data mapping aborts the
run. -/
theorem config_errors_fatal_witness :
    (∃ e, riskInit 2 (1/5) none = Except.error e) ∧
    (∃ e, Scheduler.mkInit.runDaily "0930" = Except.error e) ∧
    (∃ e, runBacktest [] (fun _ => []) Scheduler.mkInit sampleRM 0 100 = Except.error e) :=
  ⟨(config_errors_fatal.1 2 (1/5) none).2 (Or.inl (by norm_num)),
   (config_errors_fatal.2.1 Scheduler.mkInit "0930").2 (by decide),
   config_errors_fatal.2.2 (fun _ => []) Scheduler.mkInit sampleRM 0 100⟩

end QuantMVP
